import Mathlib

/-!
Shallow embedding of the react-inactify core: the activity manager
(src/src/managers/activity-manager.ts) and the tab manager
(src/src/managers/tab-manager.ts), together with the persistence
collaborator modelled from its interface contract.  Timestamps and
durations are integers (milliseconds since epoch); JavaScript number
arithmetic is exact at these magnitudes.
-/

namespace Inactify

/-- Identifier standing for one JavaScript callback function object. -/
abbrev CbId := Nat

/-- Identifier returned by window.setTimeout (positive in browsers). -/
abbrev TimerId := Nat

/-- ActivityManager.getLastActivityTime: the persisted timestamp under the
effective key, or the current time when none has been persisted yet.  The
read side of the store is modelled from the spec contract as an Option
(absent or present), since StorageManager.get never throws. -/
def getLastActivityTime (store : Option Int) (now : Int) : Int :=
  store.getD now

/-- CbId of the internal reconciliation listener that the ActivityManager
constructor registers into the listeners set. -/
def internalListenerId : CbId := 0

/-- Listener bookkeeping of ActivityManager governing the cross-context
(window storage event) listener. -/
structure SyncState where
  listeners : List CbId
  syncAcrossTabs : Bool
  storageListenerAttached : Bool
  isStorageListenerActive : Bool
  deriving DecidableEq

/-- ActivityManager constructor: registers the internal reconciliation
listener into the listeners set; no storage listener is set up here. -/
def mkActivityManager (sync : Bool) : SyncState :=
  ⟨[internalListenerId], sync, false, false⟩

/-- ActivityManager.setupStorageListener: attaches the window storage
listener unless one is already present.  Note that it never sets the
isStorageListenerActive flag. -/
def setupStorageListener (s : SyncState) : SyncState :=
  if s.storageListenerAttached then s
  else { s with storageListenerAttached := true }

/-- ActivityManager.removeStorageListener: detaches the window listener only
when both the stored listener and the isStorageListenerActive flag are set. -/
def removeStorageListener (s : SyncState) : SyncState :=
  if s.storageListenerAttached ∧ s.isStorageListenerActive then
    { s with storageListenerAttached := false }
  else s

/-- JavaScript Set.add: a no-op when the element is already present,
otherwise appended in insertion order. -/
def addListener (cb : CbId) (ls : List CbId) : List CbId :=
  if cb ∈ ls then ls else ls ++ [cb]

/-- ActivityManager.subscribe, listener-bookkeeping part: add the callback,
then set up the storage listener when the set has exactly one element and
cross-tab sync is enabled. -/
def subscribeAM (cb : CbId) (s : SyncState) : SyncState :=
  let s1 : SyncState := { s with listeners := addListener cb s.listeners }
  if s1.listeners.length = 1 ∧ s1.syncAcrossTabs then setupStorageListener s1 else s1

/-- Unsubscribe closure returned by ActivityManager.subscribe: delete the
callback, then remove the storage listener when the set became empty and
cross-tab sync is enabled. -/
def unsubscribeAM (cb : CbId) (s : SyncState) : SyncState :=
  let s1 : SyncState := { s with listeners := s.listeners.filter fun c => c ≠ cb }
  if s1.listeners.length = 0 ∧ s1.syncAcrossTabs then removeStorageListener s1 else s1

/-- TAB_INACTIVE_TIMEOUT: thirty minutes in milliseconds. -/
def TAB_INACTIVE_TIMEOUT : Int := 30 * 60 * 1000

/-- Shared tab registry: tab id to last-heartbeat timestamp.  JavaScript
object keys are unique and enumerate in insertion order. -/
abbrev TabRegistry := List (String × Int)

/-- TabManager.removeInactiveTabEntries: deletes every entry whose heartbeat
age strictly exceeds the threshold; returns the surviving entries and
whether any entry was deleted. -/
def removeInactiveTabEntries (now : Int) : TabRegistry → TabRegistry × Bool
  | [] => ([], false)
  | e :: rest =>
    let p := removeInactiveTabEntries now rest
    if now - e.2 > TAB_INACTIVE_TIMEOUT then (p.1, true) else (e :: p.1, p.2)

/-- Outcome of reading the shared registry: a read or parse failure (the
try block throwing), or the stored value (none when absent). -/
abbrev RegistryRead := Except Unit (Option TabRegistry)

/-- TabManager.getActiveTabsCount: read the registry, prune stale entries,
write the pruned registry back when anything was removed, and return the
number of surviving entries; on failure return 1 and write nothing.  The
second component records the write-back, if any. -/
def getActiveTabsCount (now : Int) (r : RegistryRead) :
    Nat × Option TabRegistry :=
  match r with
  | .error _ => (1, none)
  | .ok v =>
    let p := removeInactiveTabEntries now (v.getD [])
    (p.1.length, if p.2 then some p.1 else none)

/-- TabManager.getActiveTabIds: read the registry, prune stale entries,
write back when anything was removed, and return the surviving keys; on
failure return the one-element list holding the current tab id. -/
def getActiveTabIds (now : Int) (tabId : String) (r : RegistryRead) :
    List String × Option TabRegistry :=
  match r with
  | .error _ => ([tabId], none)
  | .ok v =>
    let p := removeInactiveTabEntries now (v.getD [])
    (p.1.map Prod.fst, if p.2 then some p.1 else none)

/-- One inactivity watcher entry: its callback set (in insertion order) and
its outstanding timer handle, if any. -/
structure WatcherEntry where
  callbacks : List CbId
  timerId : Option TimerId
  deriving DecidableEq

/-- A task sitting in the event-loop timer queue. -/
inductive ScheduledTask where
  /-- setTimeout of the callback with zero delay, issued at instant due by
  the immediate-fire path of the reconciliation. -/
  | immediate (due : Int) (cb : CbId)
  /-- window.setTimeout issued for a watcher: handle, watcher timeout key,
  absolute due instant. -/
  | watcherTimer (tid : TimerId) (timeout : Int) (due : Int)
  deriving DecidableEq

/-- State of the inactivity-watcher machinery together with the queue of
scheduled timer tasks and the next fresh timer handle. -/
structure AMState where
  watchers : List (Int × WatcherEntry)
  tasks : List ScheduledTask
  nextTimerId : TimerId
  deriving DecidableEq

/-- Fresh ActivityManager: no watchers and no queued tasks; setTimeout
handles are positive, matching the truthiness test on timerId. -/
def initAM : AMState := ⟨[], [], 1⟩

/-- Map.get on the watcher map. -/
def lookupW (t : Int) : List (Int × WatcherEntry) → Option WatcherEntry
  | [] => none
  | p :: rest => if p.1 = t then some p.2 else lookupW t rest

/-- Map.set on the watcher map: update in place when the key is present,
append otherwise. -/
def setW (t : Int) (e : WatcherEntry) :
    List (Int × WatcherEntry) → List (Int × WatcherEntry)
  | [] => [(t, e)]
  | p :: rest => if p.1 = t then (t, e) :: rest else p :: setW t e rest

/-- Map.delete on the watcher map. -/
def removeW (t : Int) (ws : List (Int × WatcherEntry)) :
    List (Int × WatcherEntry) :=
  ws.filter fun p => p.1 ≠ t

/-- clearTimeout: drops the queued watcher timer with the given handle. -/
def cancelTask (tid : TimerId) (tasks : List ScheduledTask) : List ScheduledTask :=
  tasks.filter fun task =>
    match task with
    | .watcherTimer tid2 _ _ => tid2 ≠ tid
    | _ => true

/-- Cancel the outstanding timer of an entry, when its handle is set. -/
def cancelEntryTimer (e : WatcherEntry) (tasks : List ScheduledTask) :
    List ScheduledTask :=
  match e.timerId with
  | some tid => cancelTask tid tasks
  | none => tasks

/-- Body of the rescheduleInactivityTimers loop for one watcher entry:
clear any outstanding timer, compute the remaining delay, then either queue
an immediate setTimeout per callback (already inactive) or arm one timer
for the remaining delay. -/
def rescheduleEntry (now lastActive timeout : Int) (e : WatcherEntry)
    (tasks : List ScheduledTask) (nid : TimerId) :
    WatcherEntry × List ScheduledTask × TimerId :=
  let ts := cancelEntryTimer e tasks
  let remaining := timeout - (now - lastActive)
  if remaining ≤ 0 then
    (⟨e.callbacks, none⟩, ts ++ e.callbacks.map (fun cb => .immediate now cb), nid)
  else
    (⟨e.callbacks, some nid⟩, ts ++ [.watcherTimer nid timeout (now + remaining)], nid + 1)

/-- The rescheduleInactivityTimers loop over the watcher map, threading the
task queue and the fresh-handle counter. -/
def rescheduleList (now lastActive : Int) :
    List (Int × WatcherEntry) → List ScheduledTask → TimerId →
    List (Int × WatcherEntry) × List ScheduledTask × TimerId
  | [], tasks, nid => ([], tasks, nid)
  | p :: rest, tasks, nid =>
    let r := rescheduleEntry now lastActive p.1 p.2 tasks nid
    let rr := rescheduleList now lastActive rest r.2.1 r.2.2
    ((p.1, r.1) :: rr.1, rr.2.1, rr.2.2)

/-- ActivityManager.rescheduleInactivityTimers against the given current
time and last-active value. -/
def rescheduleInactivityTimers (now lastActive : Int) (s : AMState) : AMState :=
  let r := rescheduleList now lastActive s.watchers s.tasks s.nextTimerId
  ⟨r.1, r.2.1, r.2.2⟩

/-- JavaScript Set.add on a callback set. -/
def addCb (cb : CbId) (cbs : List CbId) : List CbId :=
  if cb ∈ cbs then cbs else cbs ++ [cb]

/-- ActivityManager.subscribeToInactivity: create the watcher entry when
absent, add the callback to it, then run a full reconciliation against the
current last-active value. -/
def subscribeToInactivity (now lastActive timeout : Int) (cb : CbId)
    (s : AMState) : AMState :=
  let ws :=
    match lookupW timeout s.watchers with
    | some e => setW timeout ⟨addCb cb e.callbacks, e.timerId⟩ s.watchers
    | none => s.watchers ++ [(timeout, ⟨[cb], none⟩)]
  rescheduleInactivityTimers now lastActive ⟨ws, s.tasks, s.nextTimerId⟩

/-- Unsubscribe closure returned by subscribeToInactivity: delete this
callback; when the callback set becomes empty, clear any outstanding timer
and discard the watcher entry. -/
def unsubscribeInactivity (timeout : Int) (cb : CbId) (s : AMState) : AMState :=
  match lookupW timeout s.watchers with
  | none => s
  | some e =>
    let cbs := e.callbacks.filter fun c => c ≠ cb
    if cbs.isEmpty then
      ⟨removeW timeout s.watchers, cancelEntryTimer e s.tasks, s.nextTimerId⟩
    else
      ⟨setW timeout ⟨cbs, e.timerId⟩ s.watchers, s.tasks, s.nextTimerId⟩

/-- ActivityManager.destroy, watcher part: clear every outstanding watcher
timer and drop all watchers.  Queued immediate tasks are not cancelled. -/
def destroyAM (s : AMState) : AMState :=
  ⟨[], s.watchers.foldl (fun ts p => cancelEntryTimer p.2 ts) s.tasks, s.nextTimerId⟩

/-- Event-loop delivery of one queued task.  An immediate task invokes its
captured callback.  A watcher timer invokes every callback currently in its
entry and clears the timer handle; in the source the timer closure mutates
the entry object it captured, and at every reachable state that object is
the one in the map (a cancelled or removed timer never fires, because
unsubscription of the last callback and rescheduling both clear it).  The
invocations performed are returned as (due instant, callback) pairs. -/
def fireTask (s : AMState) (task : ScheduledTask) : AMState × List (Int × CbId) :=
  match task with
  | .immediate due cb => (⟨s.watchers, s.tasks.erase task, s.nextTimerId⟩, [(due, cb)])
  | .watcherTimer _ timeout due =>
    match lookupW timeout s.watchers with
    | none => (⟨s.watchers, s.tasks.erase task, s.nextTimerId⟩, [])
    | some e =>
      (⟨setW timeout ⟨e.callbacks, none⟩ s.watchers, s.tasks.erase task, s.nextTimerId⟩,
        e.callbacks.map fun cb => (due, cb))

/-- Event alphabet of the watcher machinery: event-loop timer deliveries,
reconciliation runs triggered by activity updates (local markActive or a
remote storage event), subscriptions, unsubscriptions, and destroy. -/
inductive AMOp where
  | fire (task : ScheduledTask)
  | activityUpdate (now lastActive : Int)
  | subscribeOp (now lastActive timeout : Int) (cb : CbId)
  | unsubscribeOp (timeout : Int) (cb : CbId)
  | destroyOp
  deriving DecidableEq

/-- Apply one event, yielding the next state and the callback invocations
that the event performed. -/
def applyOp (op : AMOp) (s : AMState) : AMState × List (Int × CbId) :=
  match op with
  | .fire task => if task ∈ s.tasks then fireTask s task else (s, [])
  | .activityUpdate now lastActive => (rescheduleInactivityTimers now lastActive s, [])
  | .subscribeOp now lastActive timeout cb =>
    (subscribeToInactivity now lastActive timeout cb s, [])
  | .unsubscribeOp timeout cb => (unsubscribeInactivity timeout cb s, [])
  | .destroyOp => (destroyAM s, [])

/-- Run a sequence of events, collecting every callback invocation. -/
def runOps : List AMOp → AMState → AMState × List (Int × CbId)
  | [], s => (s, [])
  | op :: rest, s =>
    let p := applyOp op s
    let q := runOps rest p.1
    (q.1, p.2 ++ q.2)

/-- Drain the timer queue with no further activity: deliver queued tasks in
order until none remain (firing a task never queues another). -/
def drainFuel : Nat → AMState → List (Int × CbId)
  | 0, _ => []
  | fuel + 1, s =>
    match s.tasks with
    | [] => []
    | task :: _ =>
      let p := fireTask s task
      p.2 ++ drainFuel fuel p.1

/-- Run the event loop to quiescence from the given state. -/
def drain (s : AMState) : List (Int × CbId) :=
  drainFuel s.tasks.length s

/-- A sequence of subscribeToInactivity calls against one watcher from a
fresh tracker: each pair is the registration instant and the callback. -/
def regFold (lastActive timeout : Int) (regs : List (Int × CbId)) : AMState :=
  regs.foldl (fun s r => subscribeToInactivity r.1 lastActive timeout r.2 s) initAM

/-- Callback set accumulated by a registration sequence (Set.add order). -/
def cbsOf (regs : List (Int × CbId)) : List CbId :=
  regs.foldl (fun acc r => addCb r.2 acc) []

/-- Bool test: is this task an immediate-fire task for the callback. -/
def isImmediateFor (cb : CbId) : ScheduledTask → Bool
  | .immediate _ c => c == cb
  | _ => false

/-- Bool test: does this event register the callback with some watcher. -/
def subscribesCb (cb : CbId) : AMOp → Bool
  | .subscribeOp _ _ _ c => c == cb
  | _ => false

/-- Bool test: is this the queued watcher timer with the given handle. -/
def isTimerWithId (tid : TimerId) : ScheduledTask → Bool
  | .watcherTimer tid2 _ _ => tid2 == tid
  | _ => false

/-- The callback occurs in no watcher entry of the map. -/
def CbFreeW (cb : CbId) (ws : List (Int × WatcherEntry)) : Prop :=
  ∀ p ∈ ws, cb ∉ p.2.callbacks

/-- No queued immediate task is for the callback. -/
def CbFreeT (cb : CbId) (tasks : List ScheduledTask) : Prop :=
  ∀ task ∈ tasks, isImmediateFor cb task = false

/-- The callback is neither registered with any watcher nor queued for an
immediate invocation. -/
def CbFree (cb : CbId) (s : AMState) : Prop :=
  CbFreeW cb s.watchers ∧ CbFreeT cb s.tasks

/-- Invariant of C7 as an executable check: every watcher currently in the
map has a nonempty callback set. -/
def watchersNonEmpty (s : AMState) : Bool :=
  s.watchers.all fun p => !p.2.callbacks.isEmpty

/-- Characterization of the pruning loop: the survivors are the entries
whose age is within the threshold, and the change flag reports whether any
entry was stale. -/
theorem removeInactiveTabEntries_eq (now : Int) (tabs : TabRegistry) :
    removeInactiveTabEntries now tabs =
      (tabs.filter fun e => now - e.2 ≤ TAB_INACTIVE_TIMEOUT,
       tabs.any fun e => decide (now - e.2 > TAB_INACTIVE_TIMEOUT)) := by
  induction tabs with
  | nil => rfl
  | cons e rest ih =>
    simp only [removeInactiveTabEntries, ih, List.filter_cons, List.any_cons]
    by_cases h : now - e.2 > TAB_INACTIVE_TIMEOUT
    · rw [if_pos h]
      simp [h, not_le.mpr h]
    · rw [if_neg h]
      simp [h, not_lt.mp h]

/-- Membership after a map update: the updated binding or an old one. -/
theorem mem_setW {p : Int × WatcherEntry} {t : Int} {e : WatcherEntry}
    {ws : List (Int × WatcherEntry)} (h : p ∈ setW t e ws) :
    p = (t, e) ∨ p ∈ ws := by
  induction ws with
  | nil => simpa [setW] using h
  | cons q rest ih =>
    simp only [setW] at h
    by_cases hq : q.1 = t
    · rw [if_pos hq] at h
      rcases List.mem_cons.mp h with h1 | h1
      · exact Or.inl h1
      · exact Or.inr (List.mem_cons_of_mem _ h1)
    · rw [if_neg hq] at h
      rcases List.mem_cons.mp h with h1 | h1
      · exact Or.inr (h1 ▸ List.mem_cons_self _ _)
      · rcases ih h1 with h2 | h2
        · exact Or.inl h2
        · exact Or.inr (List.mem_cons_of_mem _ h2)

/-- A successful map lookup is a member. -/
theorem lookupW_mem {t : Int} {ws : List (Int × WatcherEntry)} {e : WatcherEntry}
    (h : lookupW t ws = some e) : (t, e) ∈ ws := by
  induction ws with
  | nil => simp [lookupW] at h
  | cons q rest ih =>
    simp only [lookupW] at h
    by_cases hq : q.1 = t
    · rw [if_pos hq] at h
      injection h with h2
      have : (t, e) = q := by
        cases q with
        | mk a b => simp only at hq h2; rw [hq, h2]
      exact this ▸ List.mem_cons_self _ _
    · rw [if_neg hq] at h
      exact List.mem_cons_of_mem _ (ih h)

/-- Members surviving a map deletion were members with a different key. -/
theorem mem_removeW {p : Int × WatcherEntry} {t : Int}
    {ws : List (Int × WatcherEntry)} (h : p ∈ removeW t ws) :
    p ∈ ws ∧ p.1 ≠ t := by
  have h2 := List.mem_filter.mp h
  exact ⟨h2.1, by simpa using h2.2⟩

/-- After deleting a key it can no longer be looked up. -/
theorem lookupW_removeW (t : Int) (ws : List (Int × WatcherEntry)) :
    lookupW t (removeW t ws) = none := by
  induction ws with
  | nil => rfl
  | cons q rest ih =>
    by_cases hq : q.1 = t
    · simpa [removeW, List.filter_cons, hq] using ih
    · simpa [removeW, List.filter_cons, hq, lookupW] using ih

/-- Tasks surviving a clearTimeout were already queued. -/
theorem mem_cancelTask {task : ScheduledTask} {tid : TimerId}
    {tasks : List ScheduledTask} (h : task ∈ cancelTask tid tasks) :
    task ∈ tasks :=
  (List.mem_filter.mp h).1

/-- No task surviving a clearTimeout carries the cleared handle. -/
theorem cancelTask_no_tid {task : ScheduledTask} {tid : TimerId}
    {tasks : List ScheduledTask} (h : task ∈ cancelTask tid tasks) :
    isTimerWithId tid task = false := by
  have h2 := (List.mem_filter.mp h).2
  cases task with
  | immediate due c => rfl
  | watcherTimer tid2 t2 d =>
    simp only [isTimerWithId]
    simpa using h2

/-- Tasks surviving a conditional clearTimeout were already queued. -/
theorem mem_cancelEntryTimer {task : ScheduledTask} {e : WatcherEntry}
    {tasks : List ScheduledTask} (h : task ∈ cancelEntryTimer e tasks) :
    task ∈ tasks := by
  cases he : e.timerId with
  | none =>
    simp only [cancelEntryTimer, he] at h
    exact h
  | some tid =>
    simp only [cancelEntryTimer, he] at h
    exact mem_cancelTask h

/-- Tasks surviving the destroy loop of clearTimeouts were already queued. -/
theorem mem_foldl_cancel {task : ScheduledTask}
    {ws : List (Int × WatcherEntry)} {tasks : List ScheduledTask}
    (h : task ∈ ws.foldl (fun ts p => cancelEntryTimer p.2 ts) tasks) :
    task ∈ tasks := by
  induction ws generalizing tasks with
  | nil => exact h
  | cons q rest ih => exact mem_cancelEntryTimer (ih h)

/-- Reconciliation of one entry keeps its callback set. -/
theorem rescheduleEntry_callbacks (now lastActive t : Int) (e : WatcherEntry)
    (tasks : List ScheduledTask) (nid : TimerId) :
    (rescheduleEntry now lastActive t e tasks nid).1.callbacks = e.callbacks := by
  simp only [rescheduleEntry]
  split <;> rfl

/-- Every watcher produced by a reconciliation pass comes from a watcher of
the input map with the same key and the same callback set. -/
theorem rescheduleList_watchers_mem {now lastActive : Int}
    {ws : List (Int × WatcherEntry)} {tasks : List ScheduledTask} {nid : TimerId}
    {q : Int × WatcherEntry}
    (h : q ∈ (rescheduleList now lastActive ws tasks nid).1) :
    ∃ p ∈ ws, q.1 = p.1 ∧ q.2.callbacks = p.2.callbacks := by
  induction ws generalizing tasks nid with
  | nil => simp [rescheduleList] at h
  | cons p rest ih =>
    simp only [rescheduleList] at h
    rcases List.mem_cons.mp h with h1 | h1
    · refine ⟨p, List.mem_cons_self _ _, ?_, ?_⟩
      · rw [h1]
      · rw [h1]
        exact rescheduleEntry_callbacks ..
    · obtain ⟨p2, hp2, h3, h4⟩ := ih h1
      exact ⟨p2, List.mem_cons_of_mem _ hp2, h3, h4⟩

/-- Every task queued after reconciling one entry was already queued, or is
an immediate task for one of the entry's callbacks, or is a watcher timer. -/
theorem rescheduleEntry_tasks_mem {now lastActive t : Int} {e : WatcherEntry}
    {tasks : List ScheduledTask} {nid : TimerId} {task : ScheduledTask}
    (h : task ∈ (rescheduleEntry now lastActive t e tasks nid).2.1) :
    task ∈ tasks ∨ (∃ c ∈ e.callbacks, task = .immediate now c) ∨
      ∃ tid2 d, task = ScheduledTask.watcherTimer tid2 t d := by
  simp only [rescheduleEntry] at h
  split at h <;> simp only [List.mem_append] at h
  · rcases h with h1 | h1
    · exact Or.inl (mem_cancelEntryTimer h1)
    · obtain ⟨c, hc, rfl⟩ := List.mem_map.mp h1
      exact Or.inr (Or.inl ⟨c, hc, rfl⟩)
  · rcases h with h1 | h1
    · exact Or.inl (mem_cancelEntryTimer h1)
    · simp only [List.mem_singleton] at h1
      exact Or.inr (Or.inr ⟨nid, _, h1⟩)

/-- Every task queued after a full reconciliation pass was already queued,
or is an immediate task for a callback of some watcher, or is a watcher
timer. -/
theorem rescheduleList_tasks_mem {now lastActive : Int}
    {ws : List (Int × WatcherEntry)} {tasks : List ScheduledTask} {nid : TimerId}
    {task : ScheduledTask}
    (h : task ∈ (rescheduleList now lastActive ws tasks nid).2.1) :
    task ∈ tasks ∨ (∃ p ∈ ws, ∃ c ∈ p.2.callbacks, task = .immediate now c) ∨
      ∃ tid2 t2 d, task = ScheduledTask.watcherTimer tid2 t2 d := by
  induction ws generalizing tasks nid with
  | nil => exact Or.inl (by simpa [rescheduleList] using h)
  | cons p rest ih =>
    simp only [rescheduleList] at h
    rcases ih h with h1 | h1 | h1
    · rcases rescheduleEntry_tasks_mem h1 with h2 | h2 | h2
      · exact Or.inl h2
      · obtain ⟨c, hc, rfl⟩ := h2
        exact Or.inr (Or.inl ⟨p, List.mem_cons_self _ _, c, hc, rfl⟩)
      · obtain ⟨tid2, d, rfl⟩ := h2
        exact Or.inr (Or.inr ⟨tid2, p.1, d, rfl⟩)
    · obtain ⟨p2, hp2, hrest⟩ := h1
      exact Or.inr (Or.inl ⟨p2, List.mem_cons_of_mem _ hp2, hrest⟩)
    · exact Or.inr (Or.inr h1)

/-- Reconciliation neither registers a callback nor queues an immediate
task for a callback that is nowhere registered. -/
theorem cbFree_reschedule {cb : CbId} {now lastActive : Int} {s : AMState}
    (h : CbFree cb s) :
    CbFree cb (rescheduleInactivityTimers now lastActive s) := by
  obtain ⟨hw, ht⟩ := h
  constructor
  · intro p hp
    obtain ⟨q, hq, h1, h2⟩ := rescheduleList_watchers_mem hp
    rw [h2]
    exact hw q hq
  · intro task htask
    rcases rescheduleList_tasks_mem htask with h1 | h1 | h1
    · exact ht task h1
    · obtain ⟨p, hp, c, hc, rfl⟩ := h1
      simp only [isImmediateFor, beq_eq_false_iff_ne, ne_eq]
      intro hcc
      exact hw p hp (hcc ▸ hc)
    · obtain ⟨tid2, t2, d, rfl⟩ := h1
      rfl

/-- Adding a different callback cannot introduce this one. -/
theorem not_mem_addCb {cb c : CbId} {cbs : List CbId} (hne : c ≠ cb)
    (h : cb ∉ cbs) : cb ∉ addCb c cbs := by
  unfold addCb
  split
  · exact h
  · intro hmem
    rcases List.mem_append.mp hmem with h1 | h1
    · exact h h1
    · exact hne (List.mem_singleton.mp h1).symm

/-- One event neither invokes nor re-registers a callback that is nowhere
registered and has no queued immediate task, unless the event subscribes
that very callback. -/
theorem cbFree_applyOp {cb : CbId} {s : AMState} {op : AMOp}
    (h : CbFree cb s) (hop : subscribesCb cb op = false) :
    CbFree cb (applyOp op s).1 ∧ ∀ ev ∈ (applyOp op s).2, ev.2 ≠ cb := by
  obtain ⟨hw, ht⟩ := h
  cases op with
  | fire task =>
    by_cases hmem : task ∈ s.tasks
    · simp only [applyOp, if_pos hmem]
      cases task with
      | immediate due c =>
        refine ⟨⟨hw, ?_⟩, ?_⟩
        · intro tk htk
          exact ht tk (List.mem_of_mem_erase htk)
        · intro ev hev
          simp only [fireTask, List.mem_singleton] at hev
          rw [hev]
          have h2 := ht _ hmem
          simpa [isImmediateFor] using h2
      | watcherTimer tid2 t2 due =>
        cases hlk : lookupW t2 s.watchers with
        | none =>
          simp only [fireTask, hlk]
          refine ⟨⟨hw, ?_⟩, by simp⟩
          intro tk htk
          exact ht tk (List.mem_of_mem_erase htk)
        | some e =>
          simp only [fireTask, hlk]
          refine ⟨⟨?_, ?_⟩, ?_⟩
          · intro p hp
            rcases mem_setW hp with h1 | h1
            · rw [h1]
              exact hw (t2, e) (lookupW_mem hlk)
            · exact hw p h1
          · intro tk htk
            exact ht tk (List.mem_of_mem_erase htk)
          · intro ev hev
            obtain ⟨c, hc, rfl⟩ := List.mem_map.mp hev
            exact fun hcc => hw (t2, e) (lookupW_mem hlk) (hcc ▸ hc)
    · simp only [applyOp, if_neg hmem]
      exact ⟨⟨hw, ht⟩, by simp⟩
  | activityUpdate now lastActive =>
    exact ⟨cbFree_reschedule ⟨hw, ht⟩, by simp [applyOp]⟩
  | subscribeOp now lastActive t c =>
    have hne : c ≠ cb := by simpa [subscribesCb] using hop
    refine ⟨?_, by simp [applyOp]⟩
    simp only [applyOp, subscribeToInactivity]
    apply cbFree_reschedule
    refine ⟨?_, ht⟩
    intro p hp
    cases hlk : lookupW t s.watchers with
    | some e =>
      rw [hlk] at hp
      rcases mem_setW hp with h1 | h1
      · rw [h1]
        exact not_mem_addCb hne (hw _ (lookupW_mem hlk))
      · exact hw p h1
    | none =>
      rw [hlk] at hp
      rcases List.mem_append.mp hp with h1 | h1
      · exact hw p h1
      · rw [List.mem_singleton.mp h1]
        simpa using fun hcc => hne hcc.symm
  | unsubscribeOp t c =>
    refine ⟨?_, by simp [applyOp]⟩
    simp only [applyOp]
    cases hlk : lookupW t s.watchers with
    | none =>
      simp only [unsubscribeInactivity, hlk]
      exact ⟨hw, ht⟩
    | some e =>
      simp only [unsubscribeInactivity, hlk]
      split
      · refine ⟨?_, ?_⟩
        · intro p hp
          exact hw p (mem_removeW hp).1
        · intro tk htk
          exact ht tk (mem_cancelEntryTimer htk)
      · refine ⟨?_, ht⟩
        intro p hp
        rcases mem_setW hp with h1 | h1
        · rw [h1]
          intro hmem
          exact hw _ (lookupW_mem hlk) (List.mem_of_mem_filter hmem)
        · exact hw p h1
  | destroyOp =>
    refine ⟨⟨?_, ?_⟩, by simp [applyOp]⟩
    · intro p hp
      simp [applyOp, destroyAM] at hp
    · intro tk htk
      exact ht tk (mem_foldl_cancel htk)

/-- A sequence of events never invokes a callback that starts nowhere
registered and never gets re-subscribed along the sequence. -/
theorem cbFree_runOps {cb : CbId} {ops : List AMOp} {s : AMState}
    (h : CbFree cb s) (hops : ∀ op ∈ ops, subscribesCb cb op = false) :
    CbFree cb (runOps ops s).1 ∧ ∀ ev ∈ (runOps ops s).2, ev.2 ≠ cb := by
  induction ops generalizing s with
  | nil => exact ⟨h, by simp [runOps]⟩
  | cons op rest ih =>
    obtain ⟨h1, h2⟩ := cbFree_applyOp h (hops op (List.mem_cons_self _ _))
    obtain ⟨h3, h4⟩ := ih h1 (fun o ho => hops o (List.mem_cons_of_mem _ ho))
    refine ⟨h3, ?_⟩
    intro ev hev
    simp only [runOps, List.mem_append] at hev
    rcases hev with hev | hev
    · exact h2 ev hev
    · exact h4 ev hev

/-- Set.add never yields an empty callback set. -/
theorem addCb_ne_nil (cb : CbId) (cbs : List CbId) : addCb cb cbs ≠ [] := by
  unfold addCb
  split
  · exact fun hnil => by simp_all
  · simp

/-- One event preserves the invariant that every watcher in the map has a
nonempty callback set. -/
theorem nonEmpty_applyOp {s : AMState} {op : AMOp}
    (h : ∀ p ∈ s.watchers, p.2.callbacks ≠ []) :
    ∀ p ∈ (applyOp op s).1.watchers, p.2.callbacks ≠ [] := by
  cases op with
  | fire task =>
    by_cases hmem : task ∈ s.tasks
    · simp only [applyOp, if_pos hmem]
      cases task with
      | immediate due c => exact h
      | watcherTimer tid2 t2 due =>
        cases hlk : lookupW t2 s.watchers with
        | none =>
          simp only [fireTask, hlk]
          exact h
        | some e =>
          simp only [fireTask, hlk]
          intro p hp
          rcases mem_setW hp with h1 | h1
          · rw [h1]
            exact h (t2, e) (lookupW_mem hlk)
          · exact h p h1
    · simp only [applyOp, if_neg hmem]
      exact h
  | activityUpdate now lastActive =>
    intro p hp
    obtain ⟨q, hq, h1, h2⟩ := rescheduleList_watchers_mem hp
    rw [h2]
    exact h q hq
  | subscribeOp now lastActive t c =>
    simp only [applyOp, subscribeToInactivity]
    intro p hp
    obtain ⟨q, hq, h1, h2⟩ := rescheduleList_watchers_mem hp
    rw [h2]
    revert hq
    cases hlk : lookupW t s.watchers with
    | some e =>
      intro hq
      rcases mem_setW hq with h3 | h3
      · rw [h3]
        exact addCb_ne_nil c e.callbacks
      · exact h q h3
    | none =>
      intro hq
      rcases List.mem_append.mp hq with h3 | h3
      · exact h q h3
      · rw [List.mem_singleton.mp h3]
        simp
  | unsubscribeOp t c =>
    simp only [applyOp]
    cases hlk : lookupW t s.watchers with
    | none =>
      simp only [unsubscribeInactivity, hlk]
      exact h
    | some e =>
      simp only [unsubscribeInactivity, hlk]
      split
      · intro p hp
        exact h p (mem_removeW hp).1
      · intro p hp
        rcases mem_setW hp with h1 | h1
        · rw [h1]
          simp_all [List.isEmpty_iff]
        · exact h p h1
  | destroyOp => simp [applyOp, destroyAM]

/-- A sequence of events preserves the nonempty-callback-set invariant. -/
theorem nonEmpty_runOps {ops : List AMOp} {s : AMState}
    (h : ∀ p ∈ s.watchers, p.2.callbacks ≠ []) :
    ∀ p ∈ (runOps ops s).1.watchers, p.2.callbacks ≠ [] := by
  induction ops generalizing s with
  | nil => exact h
  | cons op rest ih => exact ih (nonEmpty_applyOp h)

/-- C1: the claim says the cross-context storage listener is attached when
the subscriber count goes from 0 to 1 with cross-tab sync enabled, and
detached when it returns to 0.  The code does neither: the constructor
pre-registers the internal reconciliation listener in the same set, so
after the first public subscribe the set has two elements and the
size-equals-one test fails (the listener is never attached), the set never
returns to size 0 on unsubscribe, and independently removeStorageListener
is a no-op because isStorageListenerActive is initialized false and never
set anywhere. -/
theorem C1_storage_listener_never_toggled :
    (subscribeAM 5 (mkActivityManager true)).storageListenerAttached = false ∧
    (unsubscribeAM 5 (subscribeAM 5 (mkActivityManager true))).storageListenerAttached = false ∧
    (subscribeAM 5 (mkActivityManager true)).listeners.length = 2 ∧
    (unsubscribeAM 5 (subscribeAM 5 (mkActivityManager true))).listeners.length = 1 ∧
    (∀ ls sync att, removeStorageListener ⟨ls, sync, att, false⟩ = ⟨ls, sync, att, false⟩) := by
  refine ⟨by decide, by decide, by decide, by decide, ?_⟩
  intro ls sync att
  simp [removeStorageListener]

/-- C6: getLastActivityTime returns the persisted timestamp whenever one
exists and the current time when none has been persisted; it is total (no
error) and its value is never a distinguished always-inactive sentinel. -/
theorem C6_getLastActivityTime (v now : Int) :
    getLastActivityTime (some v) now = v ∧ getLastActivityTime none now = now :=
  ⟨rfl, rfl⟩

/-- C8: on a successful read, both registry queries exclude exactly the
entries whose heartbeat age exceeds the thirty-minute threshold, write the
pruned registry back precisely when at least one entry was removed, and
return the size respectively the keys of what remains; in particular the
registry holding A at age 1000 and B at age threshold + 1000 yields count 1
and persists the A entry alone. -/
theorem C8_prune_on_read (now : Int) (tabs : TabRegistry) (tabId : String) :
    (getActiveTabsCount now (.ok (some tabs))).1
      = (tabs.filter fun e => now - e.2 ≤ TAB_INACTIVE_TIMEOUT).length ∧
    (getActiveTabIds now tabId (.ok (some tabs))).1
      = (tabs.filter fun e => now - e.2 ≤ TAB_INACTIVE_TIMEOUT).map Prod.fst ∧
    (getActiveTabsCount now (.ok (some tabs))).2
      = (if tabs.any fun e => decide (now - e.2 > TAB_INACTIVE_TIMEOUT)
         then some (tabs.filter fun e => now - e.2 ≤ TAB_INACTIVE_TIMEOUT)
         else none) ∧
    (getActiveTabIds now tabId (.ok (some tabs))).2
      = (getActiveTabsCount now (.ok (some tabs))).2 ∧
    getActiveTabsCount now
        (.ok (some [("A", now - 1000), ("B", now - (TAB_INACTIVE_TIMEOUT + 1000))]))
      = (1, some [("A", now - 1000)]) := by
  refine ⟨?_, ?_, ?_, ?_, ?_⟩
  · simp only [getActiveTabsCount, Option.getD_some, removeInactiveTabEntries_eq]
  · simp only [getActiveTabIds, Option.getD_some, removeInactiveTabEntries_eq]
  · simp only [getActiveTabsCount, Option.getD_some, removeInactiveTabEntries_eq]
  · simp only [getActiveTabsCount, getActiveTabIds, Option.getD_some,
      removeInactiveTabEntries_eq]
  · have e1 : now - (now - 1000) ≤ TAB_INACTIVE_TIMEOUT := by
      simp only [TAB_INACTIVE_TIMEOUT]; omega
    have e2 : ¬ now - (now - 1000) > TAB_INACTIVE_TIMEOUT := by omega
    have e3 : now - (now - (TAB_INACTIVE_TIMEOUT + 1000)) > TAB_INACTIVE_TIMEOUT := by
      omega
    have f1 : now ≤ TAB_INACTIVE_TIMEOUT + (now - 1000) := by
      simp only [TAB_INACTIVE_TIMEOUT]; omega
    have f2 : ¬ now ≤ TAB_INACTIVE_TIMEOUT + (now - (TAB_INACTIVE_TIMEOUT + 1000)) := by
      omega
    simp [getActiveTabsCount, removeInactiveTabEntries_eq, e1, e2, e3, f1, f2]

/-- C9: when reading or parsing the shared registry fails, the count query
returns 1 and the id query returns the one-element list holding the current
tab id, with no write-back and no propagated failure. -/
theorem C9_degrade_to_this_tab (now : Int) (tabId : String) :
    getActiveTabsCount now (.error ()) = (1, none) ∧
    getActiveTabIds now tabId (.error ()) = ([tabId], none) :=
  ⟨rfl, rfl⟩

/-- C10: an absent or empty registry with a successful read yields count 0
and no ids: the current tab is not implicitly counted before its own
heartbeat entry is written. -/
theorem C10_absent_or_empty_registry (now : Int) (tabId : String) :
    getActiveTabsCount now (.ok none) = (0, none) ∧
    getActiveTabIds now tabId (.ok none) = ([], none) ∧
    getActiveTabsCount now (.ok (some [])) = (0, none) ∧
    getActiveTabIds now tabId (.ok (some [])) = ([], none) :=
  ⟨rfl, rfl, rfl, rfl⟩

/-- C2 counterexample: at time 5000 with lastActive 0, subscribing callback
7 for timeout 2000 takes the already-inactive path, which queues an
immediate setTimeout for the callback and leaves the entry with no timer
handle; unsubscribing the last callback removes the watcher entry, but the
already-queued task is not cancellable through the entry and still invokes
callback 7 (at due instant 5000) after the unsubscription, refuting the
claim for the remaining-at-most-zero state it covers. -/
theorem C2_cex_already_inactive_fires_after_unsubscribe :
    (unsubscribeInactivity 2000 7 (subscribeToInactivity 5000 0 2000 7 initAM)).watchers
      = [] ∧
    drain (unsubscribeInactivity 2000 7 (subscribeToInactivity 5000 0 2000 7 initAM))
      = [(5000, 7)] := by
  constructor <;> decide

/-- C2 amended: when the last remaining callback of the watcher for timeout
t is unsubscribed while the watcher holds an armed timer handle, the timer
is cancelled synchronously, the entry is removed from the watcher map, and
the callback is never invoked by any subsequent events that do not
re-subscribe it, provided it is registered with no other watcher and has no
already-queued immediate-fire task (both hold when the watcher was armed,
since only the remaining-at-most-zero path queues immediate tasks). -/
theorem C2_unsubscribe_last_cancels (s : AMState) (t : Int) (cb : CbId)
    (tid : TimerId) (e : WatcherEntry)
    (hlook : lookupW t s.watchers = some e)
    (hcbs : e.callbacks = [cb])
    (htid : e.timerId = some tid)
    (him : ∀ task ∈ s.tasks, isImmediateFor cb task = false)
    (hw : ∀ p ∈ s.watchers, p.1 = t ∨ cb ∉ p.2.callbacks)
    (ops : List AMOp) (hops : ∀ op ∈ ops, subscribesCb cb op = false) :
    lookupW t (unsubscribeInactivity t cb s).watchers = none ∧
    (∀ task ∈ (unsubscribeInactivity t cb s).tasks, isTimerWithId tid task = false) ∧
    ∀ ev ∈ (runOps ops (unsubscribeInactivity t cb s)).2, ev.2 ≠ cb := by
  have hu : unsubscribeInactivity t cb s =
      ⟨removeW t s.watchers, cancelTask tid s.tasks, s.nextTimerId⟩ := by
    simp [unsubscribeInactivity, hlook, hcbs, cancelEntryTimer, htid]
  rw [hu]
  refine ⟨lookupW_removeW t s.watchers, ?_, ?_⟩
  · intro task htask
    exact cancelTask_no_tid htask
  · have hfree : CbFree cb ⟨removeW t s.watchers, cancelTask tid s.tasks, s.nextTimerId⟩ := by
      constructor
      · intro p hp
        obtain ⟨hpw, hpt⟩ := mem_removeW hp
        rcases hw p hpw with h1 | h1
        · exact absurd h1 hpt
        · exact h1
      · intro task htask
        exact him task (mem_cancelTask htask)
    exact (cbFree_runOps hfree hops).2

/-- Witness for C2 amended: subscribe callback 7 for timeout 2000 at time 0
with lastActive 0 (timer armed with handle 1, due 2000), unsubscribe it,
then let the stale timer due-date pass and run a reconciliation; the entry
is gone, the timer is cancelled, and callback 7 never fires. -/
theorem C2_unsubscribe_last_cancels_w :
    lookupW 2000
        (unsubscribeInactivity 2000 7 (subscribeToInactivity 0 0 2000 7 initAM)).watchers
      = none ∧
    (∀ task ∈ (unsubscribeInactivity 2000 7 (subscribeToInactivity 0 0 2000 7 initAM)).tasks,
        isTimerWithId 1 task = false) ∧
    ∀ ev ∈ (runOps [AMOp.fire (.watcherTimer 1 2000 2000), AMOp.activityUpdate 9000 0]
        (unsubscribeInactivity 2000 7 (subscribeToInactivity 0 0 2000 7 initAM))).2,
      ev.2 ≠ 7 :=
  C2_unsubscribe_last_cancels (subscribeToInactivity 0 0 2000 7 initAM) 2000 7 1
    ⟨[7], some 1⟩ (by decide) (by decide) (by decide) (by decide) (by decide)
    [AMOp.fire (.watcherTimer 1 2000 2000), AMOp.activityUpdate 9000 0] (by decide)

/-- The registering callback is in the set Set.add produces. -/
theorem mem_addCb_self (c : CbId) (cbs : List CbId) : c ∈ addCb c cbs := by
  unfold addCb
  split
  · assumption
  · simp

/-- Set.add keeps every previous member. -/
theorem mem_addCb_of_mem {a c : CbId} {cbs : List CbId} (h : a ∈ cbs) :
    a ∈ addCb c cbs := by
  unfold addCb
  split
  · exact h
  · exact List.mem_append_left _ h

/-- Set.add introduces no duplicate. -/
theorem addCb_nodup {c : CbId} {cbs : List CbId} (h : cbs.Nodup) :
    (addCb c cbs).Nodup := by
  unfold addCb
  split
  · exact h
  · simp_all [List.nodup_append]

/-- A registration sequence accumulates a duplicate-free callback set. -/
theorem cbsOf_acc_nodup (regs : List (Int × CbId)) :
    ∀ cbs : List CbId, cbs.Nodup →
      (regs.foldl (fun acc r => addCb r.2 acc) cbs).Nodup := by
  induction regs with
  | nil => exact fun cbs h => h
  | cons r rest ih => exact fun cbs h => ih _ (addCb_nodup h)

/-- Accumulation keeps every callback already in the set. -/
theorem mem_cbsOf_acc (regs : List (Int × CbId)) :
    ∀ {cbs : List CbId} {a : CbId}, a ∈ cbs →
      a ∈ regs.foldl (fun acc r => addCb r.2 acc) cbs := by
  induction regs with
  | nil => exact fun h => h
  | cons r rest ih => exact fun h => ih (mem_addCb_of_mem h)

/-- Every registered callback ends up in the accumulated set. -/
theorem mem_cbsOf_of_reg (regs : List (Int × CbId)) :
    ∀ (cbs : List CbId) {r : Int × CbId}, r ∈ regs →
      r.2 ∈ regs.foldl (fun acc q => addCb q.2 acc) cbs := by
  induction regs with
  | nil => intro cbs r hr; simp at hr
  | cons q rest ih =>
    intro cbs r hr
    rcases List.mem_cons.mp hr with h1 | h1
    · rw [List.foldl_cons]
      exact mem_cbsOf_acc rest (h1 ▸ mem_addCb_self q.2 cbs)
    · exact ih _ h1

/-- First registration in the armed window: the fresh tracker arms timer 1
for the watcher, due exactly at lastActive plus timeout. -/
theorem subscribe_first {lastActive timeout s : Int} (c : CbId)
    (hs : s < lastActive + timeout) :
    subscribeToInactivity s lastActive timeout c initAM
      = ⟨[(timeout, ⟨[c], some 1⟩)],
         [.watcherTimer 1 timeout (lastActive + timeout)], 2⟩ := by
  have h : ¬ timeout - (s - lastActive) ≤ 0 := by omega
  have hdue : s + (timeout - (s - lastActive)) = lastActive + timeout := by ring
  simp [subscribeToInactivity, initAM, lookupW, rescheduleInactivityTimers,
    rescheduleList, rescheduleEntry, cancelEntryTimer, h, hdue]

/-- Further registration in the armed window: the old timer is cancelled
and a fresh one is armed with the same due instant, the callback joining
the entry. -/
theorem subscribe_armed_step {lastActive timeout s : Int} (c : CbId)
    (cbs : List CbId) (nid : TimerId) (hs : s < lastActive + timeout) :
    subscribeToInactivity s lastActive timeout c
        ⟨[(timeout, ⟨cbs, some nid⟩)],
         [.watcherTimer nid timeout (lastActive + timeout)], nid + 1⟩
      = ⟨[(timeout, ⟨addCb c cbs, some (nid + 1)⟩)],
         [.watcherTimer (nid + 1) timeout (lastActive + timeout)], nid + 2⟩ := by
  have h : ¬ timeout - (s - lastActive) ≤ 0 := by omega
  have hdue : s + (timeout - (s - lastActive)) = lastActive + timeout := by ring
  simp [subscribeToInactivity, lookupW, setW, rescheduleInactivityTimers,
    rescheduleList, rescheduleEntry, cancelEntryTimer, cancelTask, h, hdue]

/-- A whole registration sequence in the armed window keeps the single
watcher armed at lastActive plus timeout, accumulating the callbacks. -/
theorem regFold_loop (lastActive timeout : Int) (regs : List (Int × CbId)) :
    ∀ (cbs : List CbId) (nid : TimerId),
      (∀ r ∈ regs, r.1 < lastActive + timeout) →
      regs.foldl (fun s r => subscribeToInactivity r.1 lastActive timeout r.2 s)
          ⟨[(timeout, ⟨cbs, some nid⟩)],
           [.watcherTimer nid timeout (lastActive + timeout)], nid + 1⟩
        = ⟨[(timeout, ⟨regs.foldl (fun acc r => addCb r.2 acc) cbs,
              some (nid + regs.length)⟩)],
           [.watcherTimer (nid + regs.length) timeout (lastActive + timeout)],
           nid + regs.length + 1⟩ := by
  induction regs with
  | nil => intro cbs nid _; simp
  | cons r rest ih =>
    intro cbs nid hregs
    have hr : r.1 < lastActive + timeout := hregs r (List.mem_cons_self _ _)
    rw [List.foldl_cons, subscribe_armed_step r.2 cbs nid hr,
      ih (addCb r.2 cbs) (nid + 1) (fun q hq => hregs q (List.mem_cons_of_mem _ hq))]
    have e1 : nid + 1 + rest.length = nid + (r :: rest).length := by
      simp only [List.length_cons]
      ring
    rw [e1, List.foldl_cons]

/-- Draining an armed single-watcher state fires every callback of the
entry once, at the timer due instant, and nothing afterwards. -/
theorem drain_armed (lastActive timeout : Int) (cbs : List CbId) (nid : TimerId) :
    drain ⟨[(timeout, ⟨cbs, some nid⟩)],
           [.watcherTimer nid timeout (lastActive + timeout)], nid + 1⟩
      = cbs.map (fun c => (lastActive + timeout, c)) := by
  simp [drain, drainFuel, fireTask, lookupW]

/-- C3 counterexample: callback 7 subscribed for timeout 2000 at time 5000
with lastActive 0 fires at instant 5000, the registration instant, not at
lastActive plus timeout, which is 2000 and already three seconds past; and
when a second callback, 9, subscribes to the same elapsed timeout (no
activity update in between), the reconciliation queues a fresh immediate
invocation of every registered callback, so callback 7 is invoked a second
time in the same activity epoch. -/
theorem C3_cex_late_registration :
    (drain (subscribeToInactivity 5000 0 2000 7 initAM) = [(5000, 7)] ∧
      (5000 : Int) ≠ 0 + 2000) ∧
    drain (subscribeToInactivity 5000 0 2000 9 (subscribeToInactivity 5000 0 2000 7 initAM))
      = [(5000, 7), (5000, 7), (5000, 9)] := by
  exact ⟨⟨by decide, by decide⟩, by decide⟩

/-- C3 amended: for any sequence of registrations against the watcher for a
timeout, each made before lastActive plus timeout, with no further activity
update and no other subscription, every registered callback fires exactly
once, at lastActive plus timeout: the run to quiescence invokes exactly the
accumulated callback set at that instant, the set is duplicate-free, and it
contains every registered callback.  A callback registered at or after
lastActive plus timeout instead fires exactly once at its registration
instant, provided nothing else happens; subscriptions made once the timeout
has elapsed each queue one further immediate invocation of every callback
then registered, which is why they are excluded here. -/
theorem C3_each_registered_callback_once (lastActive timeout : Int)
    (regs : List (Int × CbId))
    (hregs : ∀ r ∈ regs, r.1 < lastActive + timeout) :
    drain (regFold lastActive timeout regs)
      = (cbsOf regs).map (fun c => (lastActive + timeout, c)) ∧
    (cbsOf regs).Nodup ∧
    (∀ r ∈ regs, r.2 ∈ cbsOf regs) ∧
    (∀ now cb, lastActive + timeout ≤ now →
      drain (subscribeToInactivity now lastActive timeout cb initAM) = [(now, cb)]) := by
  refine ⟨?_, cbsOf_acc_nodup regs [] List.nodup_nil,
    fun r hr => mem_cbsOf_of_reg regs [] hr, ?_⟩
  · cases regs with
    | nil => rfl
    | cons r rest =>
      have hr : r.1 < lastActive + timeout := hregs r (List.mem_cons_self _ _)
      rw [regFold, List.foldl_cons, subscribe_first r.2 hr,
        regFold_loop lastActive timeout rest [r.2] 1
          (fun q hq => hregs q (List.mem_cons_of_mem _ hq)),
        drain_armed, cbsOf, List.foldl_cons]
      rfl
  · intro now cb hnow
    have h : timeout - (now - lastActive) ≤ 0 := by omega
    simp [subscribeToInactivity, initAM, lookupW, rescheduleInactivityTimers,
      rescheduleList, rescheduleEntry, cancelEntryTimer, h, drain, drainFuel, fireTask]

/-- Witness for C3 amended: callbacks 7 and 9 registered at times 100 and
500 with lastActive 0 and timeout 2000 each fire exactly once at 2000, and
the late-registration clause is exercised through its quantifier. -/
theorem C3_each_registered_callback_once_w :
    drain (regFold 0 2000 [(100, 7), (500, 9)])
      = (cbsOf [(100, 7), (500, 9)]).map (fun c => ((0 : Int) + 2000, c)) ∧
    (cbsOf [(100, 7), (500, 9)]).Nodup ∧
    (∀ r ∈ [((100 : Int), (7 : CbId)), (500, 9)], r.2 ∈ cbsOf [(100, 7), (500, 9)]) ∧
    (∀ now cb, (0 : Int) + 2000 ≤ now →
      drain (subscribeToInactivity now 0 2000 cb initAM) = [(now, cb)]) :=
  C3_each_registered_callback_once 0 2000 [(100, 7), (500, 9)] (by decide)

/-- C7: starting from a fresh ActivityManager, after any sequence of public
operations, reconciliations and timer deliveries, every watcher present in
the collection has at least one registered callback: entries are created
on first subscription, and unsubscribing the last callback cancels any
timer and removes the entry, so no empty watcher survives. -/
theorem C7_no_empty_watcher (ops : List AMOp) :
    watchersNonEmpty (runOps ops initAM).1 = true := by
  have h : ∀ p ∈ (runOps ops initAM).1.watchers, p.2.callbacks ≠ [] := by
    apply nonEmpty_runOps
    intro p hp
    simp [initAM] at hp
  rw [watchersNonEmpty, List.all_eq_true]
  intro p hp
  have h2 := h p hp
  cases hc : p.2.callbacks with
  | nil => exact absurd hc h2
  | cons a l => simp [hc]

end Inactify
